import Mathlib

/-!
Verification of HabitFlow's client-side derived-view logic.

The embedding models calendar dates as integer day numbers: the JS code
manipulates `Date` values and compares their ISO `YYYY-MM-DD` truncations,
and ISO date strings are in order-preserving bijection with day numbers, so
string equality/membership on date strings is equality/membership on day
numbers.  JS strings are modelled as `String` (or `List Char` where the code
does character-level work such as trimming and splitting).
-/

namespace HabitFlow

/-- One cell of the 90-day calendar heatmap: the calendar date it stands for,
whether that date occurs in the habit's completion list, and whether it is
the current day.  (In the React code these three values determine the cell's
`title`, its color class and its ring class.) -/
structure CalendarCell where
  date : Int
  isCompleted : Bool
  isToday : Bool
  deriving Repr, DecidableEq

/-- Default cell used only as the fallback of `List.getD` in statements. -/
def cellDefault : CalendarCell := ⟨0, false, false⟩

/-- Embedding of `renderCalendar` (StatsModal): `startDate` is `today - 89`;
the loop pushes, for `i = 0 .. 89`, the cell for `startDate + i` with
`isCompleted` given by list membership of its date and `isToday` by equality
with today's date. -/
def renderCalendar (today : Int) (completionDates : List Int) : List CalendarCell :=
  (List.range 90).map (fun (i : Nat) =>
    let currentDate : Int := today - 89 + (i : Int)
    { date := currentDate
      isCompleted := completionDates.contains currentDate
      isToday := currentDate == today })

/-- C1: for every "today" and every completion-date list, the heatmap has
exactly 90 cells ordered oldest-to-newest: cell `i` (0-indexed) carries the
date `today - (89 - i)`, its completed flag holds exactly when that date is
in the completion list, and its is-today flag holds exactly when `i = 89`;
in particular cell 89 carries today's date with is-today true and cell 0
carries `today - 89`. -/
theorem calendar_cells_correct (today : Int) (completionDates : List Int) :
    (renderCalendar today completionDates).length = 90 ∧
    (∀ i : Nat, i < 90 →
      ((renderCalendar today completionDates).getD i cellDefault).date
          = today - (89 - (i : Int)) ∧
      (((renderCalendar today completionDates).getD i cellDefault).isCompleted = true
          ↔ (today - (89 - (i : Int))) ∈ completionDates) ∧
      (((renderCalendar today completionDates).getD i cellDefault).isToday = true
          ↔ i = 89)) ∧
    ((renderCalendar today completionDates).getD 89 cellDefault).date = today ∧
    ((renderCalendar today completionDates).getD 89 cellDefault).isToday = true ∧
    ((renderCalendar today completionDates).getD 0 cellDefault).date = today - 89 := by
  have hlen : (renderCalendar today completionDates).length = 90 := by
    unfold renderCalendar
    rw [List.length_map, List.length_range]
  have hcell : ∀ i : Nat, i < 90 →
      (renderCalendar today completionDates).getD i cellDefault =
        { date := today - 89 + (i : Int)
          isCompleted := completionDates.contains (today - 89 + (i : Int))
          isToday := (today - 89 + (i : Int)) == today } := by
    intro i hi
    have hi2 : i < (renderCalendar today completionDates).length := by rw [hlen]; exact hi
    rw [List.getD_eq_getElem _ _ hi2]
    simp only [renderCalendar, List.getElem_map, List.getElem_range]
  refine ⟨hlen, ?_, ?_, ?_, ?_⟩
  · intro i hi
    rw [hcell i hi]
    refine ⟨by dsimp only; omega, ?_, ?_⟩
    · dsimp only
      have harith : today - 89 + (i : Int) = today - (89 - (i : Int)) := by omega
      rw [harith]
      simp only [List.contains, List.elem_iff]
    · dsimp only
      simp only [beq_iff_eq]
      omega
  · rw [hcell 89 (by omega)]; dsimp only; omega
  · rw [hcell 89 (by omega)]
    dsimp only
    simp only [beq_iff_eq]
    omega
  · rw [hcell 0 (by omega)]; dsimp only; omega

theorem calendar_cells_correct_witness :
    ((renderCalendar 5 [5, -84]).getD 0 cellDefault).date = 5 - (89 - (0 : Int)) ∧
    ((renderCalendar 5 [5, -84]).getD 0 cellDefault).isCompleted = true ∧
    ((renderCalendar 5 [5, -84]).getD 89 cellDefault).isToday = true := by
  have h := (calendar_cells_correct 5 [5, -84]).2.1 0 (by decide)
  exact ⟨h.1, h.2.1.mpr (by decide), (calendar_cells_correct 5 [5, -84]).2.2.2.1⟩

/-- C9: the heatmap generator is deterministic — its output depends on
nothing but the "today" value and the completion-date set (two invocations
with equal "today" and extensionally equal completion sets give identical
cell lists). -/
theorem renderCalendar_deterministic (t1 t2 : Int) (d1 d2 : List Int)
    (ht : t1 = t2) (hd : ∀ x : Int, x ∈ d1 ↔ x ∈ d2) :
    renderCalendar t1 d1 = renderCalendar t2 d2 := by
  subst ht
  have hmem : ∀ c : Int, d1.contains c = d2.contains c := by
    intro c
    rw [Bool.eq_iff_iff]
    simp only [List.contains, List.elem_iff]
    exact hd c
  unfold renderCalendar
  congr 1
  funext i
  dsimp only
  rw [hmem]

theorem renderCalendar_deterministic_witness :
    renderCalendar 0 [1, 1] = renderCalendar 0 [1] :=
  renderCalendar_deterministic 0 0 [1, 1] [1] rfl (by intro x; simp)

/-! ### The Dashboard's "today" value

An instant is modelled as milliseconds since the Unix epoch; a timezone is
its `getTimezoneOffset` value in minutes (UTC minus local, so local time is
`ms - offset * 60000`).  Truncating an instant to a `YYYY-MM-DD` date is
flooring by the number of milliseconds in a day, either of the instant
itself (the UTC date, what `toISOString` produces) or of its local-time
shift (the local date). -/

def msPerDay : Int := 86400000

/-- The calendar day number appearing in `Date.prototype.toISOString` output
for an instant: the UTC date. -/
def utcDateTrunc (ms : Int) : Int := Int.fdiv ms msPerDay

/-- The calendar day number of the instant in the client's local timezone
(`tzOffsetMin` is `getTimezoneOffset()`, minutes of UTC minus local). -/
def localDateTrunc (ms tzOffsetMin : Int) : Int :=
  Int.fdiv (ms - tzOffsetMin * 60000) msPerDay

/-- Embedding of the Dashboard line
`const today = new Date().toISOString().split('T')[0]`: the date string is
the UTC truncation of the current instant. -/
def dashboardToday (ms : Int) : Int := utcDateTrunc ms

/-- The `habit_completions` query issued by `fetchTodayCompletions`:
`select habit_id where date = today` — only its date parameter matters
here. -/
structure TodayCompletionsQuery where
  date : Int
  deriving Repr, DecidableEq

/-- The deletion issued by `handleUncompleteHabit`:
`delete from habit_completions where habit_id = x and date = today`. -/
structure UncompleteRequest where
  habit_id : String
  date : Int
  deriving Repr, DecidableEq

/-- The pieces of one Dashboard render that mention "today": the value
itself, the completions query built from it, and the deletion request
builder used by `handleUncompleteHabit`. -/
structure DashboardRender where
  today : Int
  completionsQuery : TodayCompletionsQuery
  uncompleteReq : String → UncompleteRequest

/-- One render of the Dashboard at instant `ms`: `today` is computed once,
and that same value is the date of the completions query and of every
uncomplete deletion. -/
def renderDashboard (ms : Int) : DashboardRender :=
  let today := dashboardToday ms
  { today := today
    completionsQuery := ⟨today⟩
    uncompleteReq := fun habitId => ⟨habitId, today⟩ }

/-- C2, counterexample: the claim says "today" is the local-timezone
truncation of the current instant.  At the instant 23:30 UTC of epoch day 0
in a UTC+2 timezone (offset -120 minutes) the code's value is the UTC date
(day 0) while the local date is already day 1, so the claim as stated is
false. -/
theorem dashboardToday_not_local :
    (renderDashboard 84600000).today ≠ localDateTrunc 84600000 (-120) := by
  decide

/-- C2, amended: "today" is computed once at start of render by truncating
the current instant to an ISO date in UTC (not the client's local
timezone), and that same literal value is the one used in today's
completion query and in every uncomplete deletion. -/
theorem dashboardToday_utc_and_reused (ms : Int) (habitId : String) :
    (renderDashboard ms).today = utcDateTrunc ms ∧
    (renderDashboard ms).completionsQuery.date = (renderDashboard ms).today ∧
    ((renderDashboard ms).uncompleteReq habitId).date = (renderDashboard ms).today :=
  ⟨rfl, rfl, rfl⟩

/-! ### Data model and filter engine -/

/-- The `Habit` row as the client sees it (Dashboard `interface Habit`).
`user_id` is implicit in the fetch and omitted. -/
structure Habit where
  id : String
  name : String
  description : Option String
  frequency_type : String
  tags : Option (List String)
  is_archived : Bool
  created_at : String
  deriving Repr, DecidableEq

/-- `interface HabitWithStreak extends Habit { currentStreak: number }`. -/
structure HabitWithStreak extends Habit where
  currentStreak : Int
  deriving Repr, DecidableEq

/-- `s.toLowerCase()` as a character sequence. -/
def lowerChars (s : String) : List Char := s.data.map Char.toLower

/-- JS `hay.includes(sub)` for strings: `sub` occurs contiguously in
`hay`. -/
def jsIncludes (hay sub : List Char) : Bool := decide (sub <:+: hay)

/-- `habit.name.toLowerCase().includes(searchQuery.toLowerCase())`. -/
def matchesSearch (searchQuery : String) (habit : HabitWithStreak) : Bool :=
  jsIncludes (lowerChars habit.name) (lowerChars searchQuery)

/-- `!selectedTag || habit.tags?.includes(selectedTag)` — with `tags` null
the optional chain is `undefined`, which is falsy. -/
def matchesTag (selectedTag : Option String) (habit : HabitWithStreak) : Bool :=
  match selectedTag with
  | none => true
  | some tag =>
    match habit.tags with
    | none => false
    | some ts => ts.contains tag

/-- Embedding of the Dashboard's `filteredHabits` derivation. -/
def filteredHabits (habits : List HabitWithStreak) (searchQuery : String)
    (selectedTag : Option String) : List HabitWithStreak :=
  habits.filter (fun habit => matchesSearch searchQuery habit && matchesTag selectedTag habit)

/-- C3: the filter engine returns an ordered subsequence of the input whose
members are exactly the habits whose lower-cased name contains the
lower-cased query as a substring and which pass the tag filter (no tag
selected, or the habit's tag list contains the selected tag exactly); the
empty query imposes no name restriction. -/
theorem filter_engine_correct (habits : List HabitWithStreak) (q : String)
    (t : Option String) :
    (filteredHabits habits q t).Sublist habits ∧
    (∀ h, h ∈ filteredHabits habits q t ↔
      h ∈ habits ∧ (lowerChars q <:+: lowerChars h.name) ∧
        (t = none ∨ ∃ tag ts, t = some tag ∧ h.tags = some ts ∧ tag ∈ ts)) ∧
    filteredHabits habits "" t = habits.filter (fun h => matchesTag t h) := by
  have htag : ∀ h, matchesTag t h = true ↔
      (t = none ∨ ∃ tag ts, t = some tag ∧ h.tags = some ts ∧ tag ∈ ts) := by
    intro h
    cases t with
    | none => simp [matchesTag]
    | some tag =>
      cases hts : h.tags with
      | none => simp [matchesTag, hts]
      | some ts =>
        simp only [matchesTag, hts, List.contains, List.elem_iff]
        constructor
        · intro hmem
          exact Or.inr ⟨tag, ts, rfl, rfl, hmem⟩
        · rintro (hcontra | ⟨tag2, ts2, heq, hts2, hmem⟩)
          · exact absurd hcontra (by simp)
          · cases Option.some.inj heq
            cases Option.some.inj hts2
            exact hmem
  refine ⟨List.filter_sublist _, ?_, ?_⟩
  · intro h
    rw [filteredHabits, List.mem_filter, Bool.and_eq_true]
    rw [htag h]
    have hsearch : matchesSearch q h = true ↔ lowerChars q <:+: lowerChars h.name := by
      simp [matchesSearch, jsIncludes]
    rw [hsearch]
  · rw [filteredHabits]
    apply List.filter_congr
    intro h _
    have hq : matchesSearch "" h = true := by
      simp [matchesSearch, jsIncludes, lowerChars]
    simp only [hq, Bool.true_and]

/-! ### Derived summary stats

The Dashboard keeps `completedToday` as a JS `Set` of habit ids; a set of
strings is modelled as a `List String` queried by membership. -/

/-- `filteredHabits.filter(h => completedToday.has(h.id)).length`. -/
def completedTodayCount (filtered : List HabitWithStreak)
    (completedToday : List String) : Nat :=
  (filtered.filter (fun h => completedToday.contains h.id)).length

/-- `filteredHabits.length`. -/
def totalHabits (filtered : List HabitWithStreak) : Nat := filtered.length

/-- JS `Math.round`: round half toward positive infinity, `⌊x + 1/2⌋`. -/
def mathRound (x : ℚ) : Int := ⌊x + 1 / 2⌋

/-- The completion-rate expression rendered by the Dashboard:
`totalHabits > 0 ? Math.round((completedTodayCount / totalHabits) * 100) : 0`.
The JS floating-point arithmetic is embedded as exact rational
arithmetic. -/
def completionRate (filtered : List HabitWithStreak)
    (completedToday : List String) : Int :=
  if 0 < totalHabits filtered then
    mathRound (((completedTodayCount filtered completedToday : ℚ)
      / (totalHabits filtered : ℚ)) * 100)
  else 0

/-- The §8 scenario habit `{id:"a", name:"Read", tags:["x"]}`. -/
def scenarioHabitA : HabitWithStreak :=
  { id := "a", name := "Read", description := none, frequency_type := "daily"
    tags := some ["x"], is_archived := false, created_at := "", currentStreak := 0 }

/-- The §8 scenario habit `{id:"b", name:"Run", tags:["y"]}`. -/
def scenarioHabitB : HabitWithStreak :=
  { id := "b", name := "Run", description := none, frequency_type := "daily"
    tags := some ["y"], is_archived := false, created_at := "", currentStreak := 0 }

/-- C4: the summary stats satisfy `total = length(filteredHabits)`,
`completedCount` = number of filtered habits whose id is in the
completed-today set, and `rate = round(completedCount / total * 100)` with
round-half-up when `total > 0` and `rate = 0` when `total = 0`; in the §8
scenario (`completedToday = ["a"]`, filtered habits `[a, b]`) this gives
`total = 2`, `completedCount = 1`, `rate = 50`. -/
theorem summary_stats_correct (filtered : List HabitWithStreak)
    (completedToday : List String) :
    totalHabits filtered = filtered.length ∧
    completedTodayCount filtered completedToday
        = (filtered.filter (fun h => completedToday.contains h.id)).length ∧
    (0 < totalHabits filtered →
      completionRate filtered completedToday
        = round (((completedTodayCount filtered completedToday : ℚ)
            / (totalHabits filtered : ℚ)) * 100)) ∧
    (totalHabits filtered = 0 → completionRate filtered completedToday = 0) ∧
    totalHabits [scenarioHabitA, scenarioHabitB] = 2 ∧
    completedTodayCount [scenarioHabitA, scenarioHabitB] ["a"] = 1 ∧
    completionRate [scenarioHabitA, scenarioHabitB] ["a"] = 50 := by
  refine ⟨rfl, rfl, ?_, ?_, ?_, ?_, ?_⟩
  · intro hpos
    rw [completionRate, if_pos hpos, mathRound, round_eq]
  · intro hzero
    rw [completionRate, if_neg (by omega)]
  · decide
  · decide
  · have h1 : completedTodayCount [scenarioHabitA, scenarioHabitB] ["a"] = 1 := by decide
    have h2 : totalHabits [scenarioHabitA, scenarioHabitB] = 2 := by decide
    rw [completionRate, if_pos (by decide), h1, h2, mathRound]
    rw [show ((((1 : Nat) : ℚ) / ((2 : Nat) : ℚ)) * 100 + 1 / 2 : ℚ)
        = ((50 : Int) : ℚ) + 1 / 2 from by norm_num]
    rw [Int.floor_int_add]
    rw [show ⌊(1 : ℚ) / 2⌋ = 0 from by norm_num [Int.floor_eq_zero_iff, Set.mem_Ico]]
    omega

theorem summary_stats_correct_witness :
    completionRate [scenarioHabitA, scenarioHabitB] ["a"]
        = round (((completedTodayCount [scenarioHabitA, scenarioHabitB] ["a"] : ℚ)
            / (totalHabits [scenarioHabitA, scenarioHabitB] : ℚ)) * 100) ∧
    completionRate [] [] = 0 :=
  ⟨(summary_stats_correct [scenarioHabitA, scenarioHabitB] ["a"]).2.2.1 (by decide),
   (summary_stats_correct [] []).2.2.2.1 rfl⟩

/-- C5: the summary-stat invariants — `completedCount ≤ total`, the rate
lies in `[0, 100]`, and when `total = 0` the rate is `0` (the guard means
no division by zero is ever performed). -/
theorem summary_stats_invariant (filtered : List HabitWithStreak)
    (completedToday : List String) :
    completedTodayCount filtered completedToday ≤ totalHabits filtered ∧
    0 ≤ completionRate filtered completedToday ∧
    completionRate filtered completedToday ≤ 100 ∧
    (totalHabits filtered = 0 → completionRate filtered completedToday = 0) := by
  have hle : completedTodayCount filtered completedToday ≤ totalHabits filtered :=
    List.length_filter_le _ _
  refine ⟨hle, ?_, ?_, ?_⟩
  · rw [completionRate]
    split
    · rw [mathRound]
      have h1 : (0 : ℚ) ≤ ((completedTodayCount filtered completedToday : ℚ)
          / (totalHabits filtered : ℚ)) * 100 := by positivity
      rw [Int.le_floor]
      push_cast
      linarith
    · exact le_refl 0
  · rw [completionRate]
    split
    · next hpos =>
      rw [mathRound]
      have ht : (0 : ℚ) < (totalHabits filtered : ℚ) := by
        exact_mod_cast hpos
      have hfrac : ((completedTodayCount filtered completedToday : ℚ)
          / (totalHabits filtered : ℚ)) ≤ 1 := by
        rw [div_le_one ht]
        exact_mod_cast hle
      have hx : ((completedTodayCount filtered completedToday : ℚ)
          / (totalHabits filtered : ℚ)) * 100 ≤ 100 := by linarith
      have : (⌊((completedTodayCount filtered completedToday : ℚ)
          / (totalHabits filtered : ℚ)) * 100 + 1 / 2⌋ : Int) < 101 := by
        rw [Int.floor_lt]
        push_cast
        linarith
      omega
    · omega
  · intro hzero
    rw [completionRate, if_neg (by omega)]

theorem summary_stats_invariant_witness :
    completionRate [] ["a"] = 0 :=
  (summary_stats_invariant [] ["a"]).2.2.2 rfl

/-! ### Tag aggregator -/

/-- `tag.length > 0`. -/
def nonEmptyStr (s : String) : Bool := decide (0 < s.length)

/-- One step of `new Set(...)` construction: insert keeping first
occurrences. -/
def insertSet (acc : List String) (t : String) : List String :=
  if acc.contains t then acc else acc ++ [t]

/-- `Array.from(new Set(l))`: deduplicate keeping insertion order. -/
def setFrom (l : List String) : List String := l.foldl insertSet []

/-- JS `Array.prototype.sort()` on strings: lexicographic ascending. -/
def sortTags (l : List String) : List String := l.insertionSort (· ≤ ·)

/-- The flatten-filter-deduplicate-sort pipeline of `allTags`, as a function
of the flattened tag list. -/
def aggregateTags (l : List String) : List String :=
  sortTags (setFrom (l.filter nonEmptyStr))

/-- Tag list of a habit as flattened by `habits.flatMap(h => h.tags || [])`. -/
def tagsOf (h : HabitWithStreak) : List String := h.tags.getD []

/-- Embedding of the Dashboard's `allTags` derivation:
`Array.from(new Set(habits.flatMap(h => h.tags || []).filter(tag => tag.length > 0))).sort()`. -/
def allTags (habits : List HabitWithStreak) : List String :=
  aggregateTags (habits.flatMap tagsOf)

theorem mem_foldl_insertSet (l acc : List String) (x : String) :
    x ∈ l.foldl insertSet acc ↔ x ∈ acc ∨ x ∈ l := by
  induction l generalizing acc with
  | nil => simp
  | cons a l ih =>
    rw [List.foldl_cons, ih]
    have hstep : x ∈ insertSet acc a ↔ x ∈ acc ∨ x = a := by
      rw [insertSet]
      split
      · next hc =>
        have ha : a ∈ acc := by
          rw [← List.elem_iff]
          exact hc
        constructor
        · exact Or.inl
        · rintro (hx | rfl)
          · exact hx
          · exact ha
      · simp
    rw [hstep]
    simp only [List.mem_cons]
    tauto

theorem nodup_foldl_insertSet (l : List String) (acc : List String)
    (h : acc.Nodup) : (l.foldl insertSet acc).Nodup := by
  induction l generalizing acc with
  | nil => exact h
  | cons a l ih =>
    rw [List.foldl_cons]
    apply ih
    rw [insertSet]
    split
    · exact h
    · next hc =>
      have ha : a ∉ acc := by
        rw [← List.elem_iff]
        simp only [List.contains] at hc
        exact fun hcontra => hc hcontra
      simp [List.nodup_append, h, ha]

theorem nonEmptyStr_iff (s : String) : nonEmptyStr s = true ↔ s ≠ "" := by
  rw [nonEmptyStr, decide_eq_true_iff]
  cases s with
  | mk data =>
    rw [String.length]
    simp [List.length_pos_iff_ne_nil, String.ext_iff]

theorem mem_aggregateTags (l : List String) (x : String) :
    x ∈ aggregateTags l ↔ x ≠ "" ∧ x ∈ l := by
  rw [aggregateTags, sortTags]
  rw [List.mem_insertionSort]
  rw [setFrom, mem_foldl_insertSet]
  simp only [List.not_mem_nil, false_or, List.mem_filter]
  rw [nonEmptyStr_iff]
  tauto

theorem sorted_aggregateTags (l : List String) :
    (aggregateTags l).Sorted (· ≤ ·) :=
  List.sorted_insertionSort _ _

theorem nodup_aggregateTags (l : List String) : (aggregateTags l).Nodup := by
  rw [aggregateTags, sortTags]
  exact (List.perm_insertionSort _ _).nodup_iff.mpr
    (nodup_foldl_insertSet _ _ List.nodup_nil)

theorem aggregateTags_ext (l l2 : List String)
    (h : ∀ x, x ∈ l ↔ x ∈ l2) : aggregateTags l = aggregateTags l2 := by
  apply List.eq_of_perm_of_sorted ?_ (sorted_aggregateTags l) (sorted_aggregateTags l2)
  rw [List.perm_ext_iff_of_nodup (nodup_aggregateTags l) (nodup_aggregateTags l2)]
  intro a
  rw [mem_aggregateTags, mem_aggregateTags, h a]

/-- C6: `allTags` is the lexicographically sorted list of the distinct
non-empty tags occurring across the habits' tag lists; the underlying
pipeline is idempotent, and any reordering of the flattened tag multiset
(permuting habits, or tags within a habit) leaves the output unchanged. -/
theorem tag_aggregator_correct (habits : List HabitWithStreak) :
    (allTags habits).Sorted (· ≤ ·) ∧
    (allTags habits).Nodup ∧
    (∀ t, t ∈ allTags habits ↔ t ≠ "" ∧ ∃ h ∈ habits, t ∈ tagsOf h) ∧
    (∀ l, aggregateTags (aggregateTags l) = aggregateTags l) ∧
    (∀ habits2 : List HabitWithStreak,
      (habits.flatMap tagsOf).Perm (habits2.flatMap tagsOf) →
        allTags habits = allTags habits2) := by
  refine ⟨sorted_aggregateTags _, nodup_aggregateTags _, ?_, ?_, ?_⟩
  · intro t
    rw [allTags, mem_aggregateTags]
    simp only [List.mem_flatMap]
  · intro l
    apply List.eq_of_perm_of_sorted ?_ (sorted_aggregateTags _) (sorted_aggregateTags _)
    rw [List.perm_ext_iff_of_nodup (nodup_aggregateTags _) (nodup_aggregateTags _)]
    intro a
    rw [mem_aggregateTags, mem_aggregateTags]
    tauto
  · intro habits2 hperm
    exact aggregateTags_ext _ _ (fun x => hperm.mem_iff)

theorem tag_aggregator_correct_witness :
    allTags [scenarioHabitB, scenarioHabitA] = allTags [scenarioHabitA, scenarioHabitB] ∧
    ("x" ∈ allTags [scenarioHabitA, scenarioHabitB] ↔
      "x" ≠ "" ∧ ∃ h ∈ [scenarioHabitA, scenarioHabitB], "x" ∈ tagsOf h) := by
  constructor
  · exact (tag_aggregator_correct [scenarioHabitB, scenarioHabitA]).2.2.2.2
      [scenarioHabitA, scenarioHabitB] (by decide)
  · exact (tag_aggregator_correct [scenarioHabitA, scenarioHabitB]).2.2.1 "x"

/-! ### Completion tracker toggles

Each handler performs exactly one remote call (the `complete_habit` rpc, or
the completion-record deletion), whose success or failure is the `remoteOk`
parameter; it then either updates the local completed-today set and
triggers a streak re-fetch, or only logs the error.  The result records the
new set, whether a diagnostic was logged, whether `fetchHabits` was
re-invoked, and how many remote calls were issued. -/

structure ToggleResult where
  completedToday : List String
  loggedError : Bool
  refetchedStreaks : Bool
  remoteCalls : Nat
  deriving Repr, DecidableEq

/-- `new Set([...prev, habitId])`: append if not already present. -/
def jsSetAdd (prev : List String) (x : String) : List String :=
  if prev.contains x then prev else prev ++ [x]

/-- `newSet.delete(habitId)` on a copy of `prev`. -/
def jsSetDelete (prev : List String) (x : String) : List String :=
  prev.filter (fun y => y != x)

/-- Embedding of `handleCompleteHabit`: on rpc success add the id and
re-fetch streaks; on rpc error log and leave the set unchanged. -/
def handleCompleteHabit (prev : List String) (habitId : String)
    (remoteOk : Bool) : ToggleResult :=
  if remoteOk then
    { completedToday := jsSetAdd prev habitId
      loggedError := false
      refetchedStreaks := true
      remoteCalls := 1 }
  else
    { completedToday := prev
      loggedError := true
      refetchedStreaks := false
      remoteCalls := 1 }

/-- Embedding of `handleUncompleteHabit`: on deletion success remove the id
and re-fetch streaks; on error log and leave the set unchanged. -/
def handleUncompleteHabit (prev : List String) (habitId : String)
    (remoteOk : Bool) : ToggleResult :=
  if remoteOk then
    { completedToday := jsSetDelete prev habitId
      loggedError := false
      refetchedStreaks := true
      remoteCalls := 1 }
  else
    { completedToday := prev
      loggedError := true
      refetchedStreaks := false
      remoteCalls := 1 }

/-- C7: completing adds the id to the completed-today set exactly when the
remote call succeeds, uncompleting removes it exactly when the deletion
succeeds, neither touches any other id, and on failure the set is left
unchanged with the error only logged and the single remote call never
retried. -/
theorem toggle_handlers_correct (prev : List String) (habitId : String)
    (remoteOk : Bool) :
    (∀ x, x ∈ (handleCompleteHabit prev habitId remoteOk).completedToday ↔
      (x ∈ prev ∨ (remoteOk = true ∧ x = habitId))) ∧
    (∀ x, x ∈ (handleUncompleteHabit prev habitId remoteOk).completedToday ↔
      (x ∈ prev ∧ ¬(remoteOk = true ∧ x = habitId))) ∧
    (remoteOk = false →
      (handleCompleteHabit prev habitId remoteOk).completedToday = prev ∧
      (handleCompleteHabit prev habitId remoteOk).loggedError = true ∧
      (handleUncompleteHabit prev habitId remoteOk).completedToday = prev ∧
      (handleUncompleteHabit prev habitId remoteOk).loggedError = true) ∧
    (handleCompleteHabit prev habitId remoteOk).remoteCalls = 1 ∧
    (handleUncompleteHabit prev habitId remoteOk).remoteCalls = 1 := by
  refine ⟨?_, ?_, ?_, ?_, ?_⟩
  · intro x
    cases remoteOk with
    | false => simp [handleCompleteHabit]
    | true =>
      simp only [handleCompleteHabit, if_pos, jsSetAdd]
      split
      · next hc =>
        have hmem : habitId ∈ prev := by
          rw [← List.elem_iff]
          exact hc
        constructor
        · exact fun hx => Or.inl hx
        · rintro (hx | ⟨-, rfl⟩)
          · exact hx
          · exact hmem
      · simp only [List.mem_append, List.mem_singleton]
        tauto
  · intro x
    cases remoteOk with
    | false => simp [handleUncompleteHabit]
    | true =>
      simp only [handleUncompleteHabit, if_pos, jsSetDelete, List.mem_filter,
        bne_iff_ne, ne_eq, decide_eq_true_iff]
      tauto
  · intro hfail
    subst hfail
    exact ⟨rfl, rfl, rfl, rfl⟩
  · cases remoteOk <;> rfl
  · cases remoteOk <;> rfl

/-! ### Tag parsing and form validation

`parseTags`, trimming and splitting are character-level, so these handlers
take JS strings as `List Char`. -/

/-- The whitespace predicate of JS `String.prototype.trim`. -/
def isWS (c : Char) : Bool := c.isWhitespace

/-- Drop trailing whitespace. -/
def rdropWS (l : List Char) : List Char := (l.reverse.dropWhile isWS).reverse

/-- JS `s.trim()`: drop leading then trailing whitespace. -/
def jsTrim (l : List Char) : List Char := rdropWS (l.dropWhile isWS)

/-- JS `s.split(',')`. -/
def splitOnComma : List Char → List (List Char)
  | [] => [[]]
  | c :: rest =>
    match splitOnComma rest with
    | [] => [[]]
    | cur :: others =>
      if c = ',' then [] :: cur :: others else (c :: cur) :: others

/-- `tag.length > 0` on a character sequence. -/
def nonEmptyChars (t : List Char) : Bool := decide (0 < t.length)

/-- Embedding of the Dashboard's `parseTags`: split on commas, trim each
piece, drop empty pieces, and return `null` when nothing remains. -/
def parseTags (tagsString : List Char) : Option (List (List Char)) :=
  let tags := ((splitOnComma tagsString).map jsTrim).filter nonEmptyChars
  if 0 < tags.length then some tags else none

theorem dw_idem (p : Char → Bool) (l : List Char) :
    (l.dropWhile p).dropWhile p = l.dropWhile p := by
  induction l with
  | nil => rfl
  | cons c l ih =>
    rw [List.dropWhile_cons]
    split
    · exact ih
    · next hpc => rw [List.dropWhile_cons, if_neg hpc]

theorem dw_append (p : Char → Bool) (l1 l2 : List Char) :
    (l1 ++ l2).dropWhile p =
      if (l1.dropWhile p).isEmpty then l2.dropWhile p else l1.dropWhile p ++ l2 := by
  induction l1 with
  | nil => simp
  | cons c l ih =>
    by_cases hpc : p c
    · simp [List.dropWhile_cons, hpc, ih]
    · simp [List.dropWhile_cons, hpc]

theorem dropWhile_rdropWS (l : List Char) (h : l.dropWhile isWS = l) :
    (rdropWS l).dropWhile isWS = rdropWS l := by
  cases l with
  | nil => rfl
  | cons c l =>
    have hpc : ¬ isWS c = true := by
      intro hc
      rw [List.dropWhile_cons, if_pos hc] at h
      have hlen := congrArg List.length h
      have hle : (l.dropWhile isWS).length ≤ l.length :=
        List.Sublist.length_le (List.dropWhile_sublist isWS)
      simp only [List.length_cons] at hlen
      omega
    rw [rdropWS, List.reverse_cons, dw_append]
    split
    · rw [List.dropWhile_cons, if_neg hpc, List.reverse_cons, List.reverse_nil,
        List.nil_append]
      rw [List.dropWhile_cons, if_neg hpc]
    · rw [List.reverse_append, List.reverse_cons, List.reverse_nil, List.nil_append,
        List.singleton_append, List.dropWhile_cons, if_neg hpc]

theorem rdropWS_rdropWS (l : List Char) : rdropWS (rdropWS l) = rdropWS l := by
  rw [rdropWS, rdropWS, List.reverse_reverse, dw_idem]

theorem jsTrim_idem (l : List Char) : jsTrim (jsTrim l) = jsTrim l := by
  have h1 : (jsTrim l).dropWhile isWS = jsTrim l :=
    dropWhile_rdropWS _ (dw_idem isWS l)
  calc jsTrim (jsTrim l) = rdropWS ((jsTrim l).dropWhile isWS) := rfl
    _ = rdropWS (jsTrim l) := by rw [h1]
    _ = rdropWS (rdropWS (l.dropWhile isWS)) := rfl
    _ = rdropWS (l.dropWhile isWS) := rdropWS_rdropWS _
    _ = jsTrim l := rfl

/-- C10: on every input `parseTags` returns either `null` or a non-empty
list of tags in which every tag is non-empty and equal to its own trim, so
a habit created through the form never carries an empty tag list or an
empty or whitespace-padded tag. -/
theorem parseTags_wellformed (tagsString : List Char) :
    parseTags tagsString = none ∨
    ∃ ts, parseTags tagsString = some ts ∧ ts ≠ [] ∧
      ∀ t ∈ ts, t ≠ [] ∧ jsTrim t = t := by
  rw [parseTags]
  split
  · next hpos =>
    refine Or.inr ⟨_, rfl, ?_, ?_⟩
    · intro hcontra
      rw [hcontra] at hpos
      exact absurd hpos (by simp)
    · intro t ht
      rw [List.mem_filter] at ht
      obtain ⟨hmem, hne⟩ := ht
      rw [nonEmptyChars, decide_eq_true_iff] at hne
      refine ⟨by intro hc; rw [hc] at hne; exact absurd hne (by simp), ?_⟩
      rw [List.mem_map] at hmem
      obtain ⟨x, -, rfl⟩ := hmem
      exact jsTrim_idem x
  · exact Or.inl rfl

/-- Form-validation outcomes: either an inline validation rejection (no
request leaves the client) or the network request the handler would
issue. -/
inductive RegisterOutcome where
  | validationError (message : String)
  | signUpRequest (email password : String)
  deriving Repr, DecidableEq

/-- Embedding of `handleSubmit` in Register: the confirmation-match and
minimum-length checks run before `supabase.auth.signUp` is invoked. -/
def handleSubmit (email password confirmPassword : String) : RegisterOutcome :=
  if password ≠ confirmPassword then
    .validationError "Passwords do not match"
  else if password.length < 6 then
    .validationError "Password must be at least 6 characters long"
  else
    .signUpRequest email password

inductive EvolveOutcome where
  | validationError (message : String)
  | evolveRequest (habitId : String) (newDescription : List Char)
  deriving Repr, DecidableEq

/-- Whether an evolve outcome is an inline validation rejection. -/
def EvolveOutcome.isValidationError : EvolveOutcome → Bool
  | .validationError _ => true
  | .evolveRequest _ _ => false

/-- Embedding of `handleEvolve` in EvolveHabitModal: the non-empty check
and the identical-description check run before the `evolve_habit` rpc. -/
def handleEvolve (habitId : String) (currentDescription : Option (List Char))
    (newDescription : List Char) : EvolveOutcome :=
  if jsTrim newDescription = [] then
    .validationError "Please enter a new description"
  else if some newDescription = currentDescription then
    .validationError "New description must be different from current"
  else
    .evolveRequest habitId newDescription

inductive AddHabitOutcome where
  | rejected
  | insertRequest (name : List Char) (description : Option (List Char))
      (tags : Option (List (List Char)))
  deriving Repr, DecidableEq

/-- Embedding of the Dashboard's `handleAddHabit`: a blank name returns
before anything else (in the source, before even the `auth.getUser` call);
otherwise the habit row is inserted with the raw name, the description (or
null when empty, via `|| null`), and `parseTags` of the tags field.  The
constant `user_id`, `frequency_type: 'daily'` and `is_archived: false`
fields are omitted. -/
def handleAddHabit (name description tagsString : List Char) : AddHabitOutcome :=
  if jsTrim name = [] then
    .rejected
  else
    .insertRequest name (if description = [] then none else some description)
      (parseTags tagsString)

/-- C8: each validation error of the taxonomy — blank habit name on
creation, mismatched confirmation password or too-short password on
registration, identical new description on evolution — yields an inline
rejection, never the corresponding network request, so the rejected
operation has no side effect. -/
theorem validation_before_network (name description tagsString : List Char)
    (email password confirmPassword : String) (habitId : String)
    (currentDescription : Option (List Char)) (newDescription : List Char) :
    (jsTrim name = [] →
      handleAddHabit name description tagsString = .rejected) ∧
    (password ≠ confirmPassword →
      handleSubmit email password confirmPassword
        = .validationError "Passwords do not match") ∧
    (password = confirmPassword → password.length < 6 →
      handleSubmit email password confirmPassword
        = .validationError "Password must be at least 6 characters long") ∧
    (some newDescription = currentDescription →
      (handleEvolve habitId currentDescription newDescription).isValidationError
        = true) := by
  refine ⟨?_, ?_, ?_, ?_⟩
  · intro hblank
    rw [handleAddHabit, if_pos hblank]
  · intro hne
    rw [handleSubmit, if_pos hne]
  · intro heq hshort
    rw [handleSubmit, if_neg (by simp [heq]), if_pos hshort]
  · intro hsame
    rw [handleEvolve]
    by_cases h1 : jsTrim newDescription = []
    · rw [if_pos h1]
      rfl
    · rw [if_neg h1, if_pos hsame]
      rfl

theorem validation_before_network_witness :
    handleAddHabit [' ', ' '] [] [] = .rejected ∧
    handleSubmit "a@b.c" "secret1" "secret2" = .validationError "Passwords do not match" ∧
    handleSubmit "a@b.c" "abc" "abc"
      = .validationError "Password must be at least 6 characters long" ∧
    (handleEvolve "h1" (some ['x']) ['x']).isValidationError = true := by
  have h := validation_before_network [' ', ' '] [] [] "a@b.c" "secret1" "secret2" "h1"
    (some ['x']) ['x']
  have h2 := validation_before_network [' ', ' '] [] [] "a@b.c" "abc" "abc" "h1"
    (some ['x']) ['x']
  exact ⟨h.1 (by decide), h.2.1 (by decide), h2.2.2.1 (by decide) (by decide),
    h.2.2.2 rfl⟩

theorem toggle_handlers_correct_witness :
    ("a" ∈ (handleCompleteHabit [] "a" true).completedToday ↔
      ("a" ∈ ([] : List String) ∨ (true = true ∧ "a" = "a"))) ∧
    (handleCompleteHabit ["b"] "a" false).completedToday = ["b"] ∧
    (handleUncompleteHabit ["a"] "a" false).loggedError = true :=
  ⟨(toggle_handlers_correct [] "a" true).1 "a",
   ((toggle_handlers_correct ["b"] "a" false).2.2.1 rfl).1,
   ((toggle_handlers_correct ["a"] "a" false).2.2.1 rfl).2.2.2⟩

end HabitFlow
